import Mathlib

/-!
# Verification of the urban-infra analysis pipeline

Shallow embedding of the urban-infra repository (frontend TypeScript under
`frontend/src`, plus the spec-documented backend pipeline) in Lean 4, with
theorems settling the frozen claims about the natural-language specification.

Numbers (TypeScript `number`) are modelled as `ℚ`.  Definitions translated
from frontend source files name the file and function they embed.  Backend
components absent from the source snapshot (classifier, template selector,
scenario generator, confidence propagation) are modelled from the spec and
carry a doc comment starting `Modelled from the spec:`.
-/

namespace UrbanInfra

/-! ## Character classes

Models of the regex character classes used by
`extractTemperatureChange` in `frontend/src/components/exploratory-canvas.tsx`:
`\d` is `[0-9]`; `\s` is modelled by the ASCII whitespace characters
(space, tab, line feed, carriage return, vertical tab, form feed). -/

/-- Model of the regex class `\d` (the characters `0`–`9`). -/
def isDigitChar (c : Char) : Bool := 48 ≤ c.toNat && c.toNat ≤ 57

/-- Model of the regex class `\s` (ASCII whitespace). -/
def isSpaceChar (c : Char) : Bool :=
  c = ' ' || c = '\t' || c = '\n' || c = '\r' || c = '\x0b' || c = '\x0c'

/-! ## `extractTemperatureChange`

Embedding of `extractTemperatureChange` from
`frontend/src/components/exploratory-canvas.tsx` (lines 464–472):

```ts
function extractTemperatureChange(query: string): number {
  const match = query.match(/(\d+)\s*degrees?\s*(colder|cooler|warmer|hotter)/i);
  if (match) {
    const degrees = parseInt(match[1]);
    const direction = match[2].toLowerCase();
    return direction === 'colder' || direction === 'cooler' ? -degrees : degrees;
  }
  return -10; // default
}
```

The regex engine is embedded as a leftmost-match scanner.  For this pattern
greedy matching without backtracking coincides with the regex semantics:
after `\d+` the next pattern atom cannot match a digit, and after `\s*` it
cannot match a whitespace character, so shrinking a greedy run never
rescues a failed match. -/

/-- The four direction words of the temperature regex alternation. -/
inductive TempDir where
  | colder
  | cooler
  | warmer
  | hotter
deriving DecidableEq, Repr

/-- The (lowercase) spelling of each direction word. -/
def dirChars : TempDir → List Char
  | .colder => "colder".data
  | .cooler => "cooler".data
  | .warmer => "warmer".data
  | .hotter => "hotter".data

/-- `parseInt` on a run of decimal digits. -/
def digitsToNat (ds : List Char) : Nat :=
  ds.foldl (fun n c => 10 * n + (c.toNat - 48)) 0

/-- Match the alternation `(colder|cooler|warmer|hotter)` case-insensitively
at the head of `s` (all four words have six characters). -/
def matchDir (s : List Char) : Option TempDir :=
  let h6 := (s.take 6).map Char.toLower
  if h6 = "colder".data then some .colder
  else if h6 = "cooler".data then some .cooler
  else if h6 = "warmer".data then some .warmer
  else if h6 = "hotter".data then some .hotter
  else none

/-- Match the atom `degrees?` (case-insensitive) at the head of `r1`,
returning the remainder after it. -/
def afterDegree (r1 : List Char) : Option (List Char) :=
  if ((r1.take 6).map Char.toLower) = "degree".data then
    some (if (((r1.drop 6).take 1).map Char.toLower) = ['s']
          then (r1.drop 6).drop 1 else r1.drop 6)
  else none

/-- Match `(\d+)\s*degrees?\s*(colder|cooler|warmer|hotter)` (case-insensitive)
at the head of `s`, returning the parsed digits and the direction. -/
def matchTempAt (s : List Char) : Option (Nat × TempDir) :=
  if s.takeWhile isDigitChar = [] then none
  else
    (afterDegree ((s.dropWhile isDigitChar).dropWhile isSpaceChar)).bind
      (fun r3 => (matchDir (r3.dropWhile isSpaceChar)).map
        (fun d => (digitsToNat (s.takeWhile isDigitChar), d)))

/-- Leftmost match of the temperature pattern: `String.prototype.match`. -/
def findTemp : List Char → Option (Nat × TempDir)
  | [] => none
  | c :: cs =>
    match matchTempAt (c :: cs) with
    | some r => some r
    | none => findTemp cs

/-- `extractTemperatureChange` (exploratory-canvas.tsx, lines 464–472). -/
def extractTemperatureChange (query : String) : Int :=
  match findTemp query.data with
  | some (n, d) => if d = .colder ∨ d = .cooler then -(n : Int) else (n : Int)
  | none => -10

example : extractTemperatureChange "What if it became 10 degrees colder in Mission?" = -10 := by
  decide

example : extractTemperatureChange "suppose 7 Degrees WARMER" = 7 := by decide

example : extractTemperatureChange "3 degree cooler" = -3 := by decide

example : extractTemperatureChange "Marina vs Mission bike infrastructure" = -10 := by decide

/-! ## Declarative description of the temperature pattern -/

/-- `w` spells the string `p` up to ASCII case. -/
def LowersTo (w : List Char) (p : String) : Prop := w.map Char.toLower = p.data

instance (w : List Char) (p : String) : Decidable (LowersTo w p) :=
  inferInstanceAs (Decidable (_ = _))

/-- `w` is a spelling of `degree` or `degrees` (the regex atom `degrees?`). -/
def IsDegreeToken (w : List Char) : Prop := LowersTo w "degree" ∨ LowersTo w "degrees"

instance (w : List Char) : Decidable (IsDegreeToken w) :=
  inferInstanceAs (Decidable (_ ∨ _))

/-- `w` spells the direction word `d` up to case. -/
def IsDirToken (d : TempDir) (w : List Char) : Prop := w.map Char.toLower = dirChars d

instance (d : TempDir) (w : List Char) : Decidable (IsDirToken d w) :=
  inferInstanceAs (Decidable (_ = _))

/-- `l` contains an occurrence of the pattern
`(\d+)\s*degrees?\s*(colder|cooler|warmer|hotter)` (case-insensitive),
stated as an explicit decomposition of `l`. -/
def ContainsTemp (l : List Char) : Prop :=
  ∃ (pre ds sp1 deg sp2 dw suf : List Char) (d : TempDir),
    l = pre ++ (ds ++ (sp1 ++ (deg ++ (sp2 ++ (dw ++ suf))))) ∧
    ds ≠ [] ∧ (∀ c ∈ ds, isDigitChar c = true) ∧
    (∀ c ∈ sp1, isSpaceChar c = true) ∧ (∀ c ∈ sp2, isSpaceChar c = true) ∧
    IsDegreeToken deg ∧ IsDirToken d dw

/-! ## Character-class facts -/

theorem toLower_of_isDigit {c : Char} (h : isDigitChar c = true) : c.toLower = c := by
  simp only [isDigitChar, Char.toNat, Bool.and_eq_true, decide_eq_true_eq] at h
  simp only [Char.toLower, Char.toNat]
  rw [if_neg (by omega)]

theorem isDigitChar_toLower {c : Char} (h : isDigitChar c = true) :
    isDigitChar c.toLower = true := by
  rw [toLower_of_isDigit h]; exact h

theorem isSpaceChar_cases {c : Char} (h : isSpaceChar c = true) :
    c = ' ' ∨ c = '\t' ∨ c = '\n' ∨ c = '\r' ∨ c = '\x0b' ∨ c = '\x0c' := by
  simpa [isSpaceChar, or_assoc] using h

theorem isSpaceChar_toLower {c : Char} (h : isSpaceChar c = true) :
    isSpaceChar c.toLower = true := by
  rcases isSpaceChar_cases h with rfl | rfl | rfl | rfl | rfl | rfl <;> decide

theorem isSpace_not_digit {c : Char} (h : isSpaceChar c = true) :
    isDigitChar c = false := by
  rcases isSpaceChar_cases h with rfl | rfl | rfl | rfl | rfl | rfl <;> decide

/-- A character whose lowercase form is a given letter is not a digit. -/
theorem not_digit_of_toLower {c x : Char} (h : c.toLower = x)
    (hx : isDigitChar x = false) : isDigitChar c = false := by
  cases hd : isDigitChar c with
  | false => rfl
  | true => rw [toLower_of_isDigit hd] at h; subst h; exact hd.symm.trans hx

/-- A character whose lowercase form is a given letter is not whitespace. -/
theorem not_space_of_toLower {c x : Char} (h : c.toLower = x)
    (hx : isSpaceChar x = false) : isSpaceChar c = false := by
  cases hs : isSpaceChar c with
  | false => rfl
  | true => exact absurd (h ▸ isSpaceChar_toLower hs) (by simp [hx])

/-! ## Small list facts -/

theorem takeWhile_nil_of_head {p : Char → Bool} :
    ∀ {l : List Char}, (∀ c ∈ l.take 1, p c = false) → l.takeWhile p = []
  | [], _ => rfl
  | c :: _, h => List.takeWhile_cons_of_neg (by simp [h c (by simp)])

theorem dropWhile_self_of_head {p : Char → Bool} :
    ∀ {l : List Char}, (∀ c ∈ l.take 1, p c = false) → l.dropWhile p = l
  | [], _ => rfl
  | c :: t, h => by
    rw [List.dropWhile_cons]
    simp [h c (by simp)]

/-- A case-insensitive token is nonempty, and its head lowers to the first
character of its spelling. -/
theorem head_of_lowersTo {w : List Char} {x : Char} {xs : List Char} {p : String}
    (hp : p.data = x :: xs) (h : LowersTo w p) :
    ∃ a t, w = a :: t ∧ a.toLower = x := by
  cases w with
  | nil =>
    unfold LowersTo at h
    rw [hp] at h
    exact absurd h (by simp)
  | cons a t =>
    refine ⟨a, t, rfl, ?_⟩
    unfold LowersTo at h
    rw [hp] at h
    simp only [List.map_cons, List.cons.injEq] at h
    exact h.1

theorem map_eq_singleton {f : Char → Char} {l : List Char} {y : Char}
    (h : l.map f = [y]) : ∃ c, l = [c] ∧ f c = y := by
  cases l with
  | nil => simp at h
  | cons a t =>
    simp only [List.map_cons, List.cons.injEq] at h
    have ht : t = [] := by
      cases t with
      | nil => rfl
      | cons b t2 => simp at h
    subst ht
    exact ⟨a, rfl, h.1⟩

theorem forall_take1_cons {p : Char → Bool} {a : Char} {t : List Char} (h : p a = false) :
    ∀ c ∈ ((a :: t).take 1), p c = false := by
  intro c hc
  simp only [List.take_succ_cons, List.take_zero, List.mem_singleton] at hc
  subst hc
  exact h

theorem forall_take1_append_left {p : Char → Bool} {l1 l2 : List Char}
    (h1 : ∀ c ∈ l1, p c = false) (h2 : ∀ c ∈ l2.take 1, p c = false) :
    ∀ c ∈ ((l1 ++ l2).take 1), p c = false := by
  cases l1 with
  | nil => simpa using h2
  | cons a t => exact forall_take1_cons (h1 a (by simp))

/-- The first character of a `degrees?` token is neither whitespace nor a digit. -/
theorem degToken_head {deg : List Char} (h : IsDegreeToken deg) :
    ∃ a t, deg = a :: t ∧ isSpaceChar a = false ∧ isDigitChar a = false := by
  have hd : ∃ a t, deg = a :: t ∧ a.toLower = 'd' := by
    rcases h with h | h
    · exact head_of_lowersTo (show "degree".data = 'd' :: "egree".data from rfl) h
    · exact head_of_lowersTo (show "degrees".data = 'd' :: "egrees".data from rfl) h
  obtain ⟨a, t, hc, ha⟩ := hd
  exact ⟨a, t, hc, not_space_of_toLower ha (by decide), not_digit_of_toLower ha (by decide)⟩

/-- The first character of a direction word is not whitespace, not a digit,
and does not lower to `s`. -/
theorem dirToken_head {d : TempDir} {dw : List Char} (h : IsDirToken d dw) :
    ∃ a t, dw = a :: t ∧ isSpaceChar a = false ∧ isDigitChar a = false ∧ a.toLower ≠ 's' := by
  cases d with
  | colder =>
    obtain ⟨a, t, hc, ha⟩ := head_of_lowersTo (show "colder".data = 'c' :: "older".data from rfl) (h : LowersTo dw "colder")
    exact ⟨a, t, hc, not_space_of_toLower ha (by decide),
      not_digit_of_toLower ha (by decide), by rw [ha]; decide⟩
  | cooler =>
    obtain ⟨a, t, hc, ha⟩ := head_of_lowersTo (show "cooler".data = 'c' :: "ooler".data from rfl) (h : LowersTo dw "cooler")
    exact ⟨a, t, hc, not_space_of_toLower ha (by decide),
      not_digit_of_toLower ha (by decide), by rw [ha]; decide⟩
  | warmer =>
    obtain ⟨a, t, hc, ha⟩ := head_of_lowersTo (show "warmer".data = 'w' :: "armer".data from rfl) (h : LowersTo dw "warmer")
    exact ⟨a, t, hc, not_space_of_toLower ha (by decide),
      not_digit_of_toLower ha (by decide), by rw [ha]; decide⟩
  | hotter =>
    obtain ⟨a, t, hc, ha⟩ := head_of_lowersTo (show "hotter".data = 'h' :: "otter".data from rfl) (h : LowersTo dw "hotter")
    exact ⟨a, t, hc, not_space_of_toLower ha (by decide),
      not_digit_of_toLower ha (by decide), by rw [ha]; decide⟩

/-- `degrees?` consumes exactly a degree token: `afterDegree` on a degree
token followed by anything returns that remainder.  The optional `s` is
never taken from the remainder because the remainder starts with whitespace
or with a direction word, and neither starts with an `s`. -/
theorem afterDegree_token {deg sp2 dw suf : List Char} {d : TempDir}
    (hdeg : IsDegreeToken deg) (hsp2 : ∀ c ∈ sp2, isSpaceChar c = true)
    (hdw : IsDirToken d dw) :
    afterDegree (deg ++ (sp2 ++ (dw ++ suf))) = some (sp2 ++ (dw ++ suf)) := by
  obtain ⟨b, u, hbc, hbS, hbD, hbs⟩ := dirToken_head hdw
  have hsTest : ¬ ((((sp2 ++ (dw ++ suf)).take 1).map Char.toLower) = ['s']) := by
    intro hcontra
    cases sp2 with
    | nil =>
      rw [hbc] at hcontra
      simp only [List.nil_append, List.cons_append, List.take_succ_cons, List.take_zero,
        List.map_cons, List.map_nil, List.cons.injEq, and_true] at hcontra
      exact hbs hcontra
    | cons c cs =>
      simp only [List.nil_append, List.cons_append, List.take_succ_cons, List.take_zero,
        List.map_cons, List.map_nil, List.cons.injEq, and_true] at hcontra
      have hsp := isSpaceChar_toLower (hsp2 c (by simp))
      rw [hcontra] at hsp
      exact absurd hsp (by decide)
  rcases hdeg with hdg | hdg
  · -- six-character spelling of `degree`
    have hlen : deg.length = 6 := by
      have hl := congrArg List.length hdg
      rw [List.length_map] at hl
      rw [hl]; decide
    have hdg6 : List.map Char.toLower deg = "degree".data := hdg
    unfold afterDegree
    rw [List.take_left' hlen, List.drop_left' hlen]
    rw [if_pos hdg6, if_neg hsTest]
  · -- seven-character spelling of `degrees`
    have hlen : deg.length = 7 := by
      have hl := congrArg List.length hdg
      rw [List.length_map] at hl
      rw [hl]; decide
    have hsplit : deg.take 6 ++ (deg.drop 6 ++ (sp2 ++ (dw ++ suf)))
        = deg ++ (sp2 ++ (dw ++ suf)) := by
      rw [← List.append_assoc, List.take_append_drop]
    have hlen6 : (deg.take 6).length = 6 := by
      simp [List.length_take, hlen]
    have hmap6 : ((deg.take 6).map Char.toLower) = "degree".data := by
      rw [List.map_take, hdg]
      decide
    have hdrop7 : ((deg.drop 6).map Char.toLower) = ['s'] := by
      rw [List.map_drop, hdg]
      decide
    obtain ⟨c7, hc7eq, hc7⟩ := map_eq_singleton hdrop7
    unfold afterDegree
    rw [← hsplit, List.take_left' hlen6, List.drop_left' hlen6]
    rw [if_pos hmap6, hc7eq]
    simp only [List.cons_append, List.take_succ_cons, List.take_zero,
      List.map_cons, List.map_nil]
    rw [if_pos (by rw [hc7]), List.drop_succ_cons, List.drop_zero, List.nil_append]

theorem dirToken_length {d : TempDir} {dw : List Char} (h : IsDirToken d dw) :
    dw.length = 6 := by
  have hl := congrArg List.length h
  rw [List.length_map] at hl
  cases d <;> simpa using hl

/-- The direction alternation succeeds on a direction word followed by any
suffix, returning that direction. -/
theorem matchDir_token {d : TempDir} {dw suf : List Char} (hdw : IsDirToken d dw) :
    matchDir (dw ++ suf) = some d := by
  have h6 : ((dw ++ suf).take 6).map Char.toLower = dirChars d := by
    rw [List.take_left' (dirToken_length hdw)]
    exact hdw
  unfold matchDir
  rw [h6]
  cases d <;> decide

/-- `matchTempAt` succeeds at the start of a pattern occurrence with the
parsed digit run and the direction of the occurrence. -/
theorem matchTempAt_pattern {ds sp1 deg sp2 dw suf : List Char} {d : TempDir}
    (hds : ds ≠ []) (hdig : ∀ c ∈ ds, isDigitChar c = true)
    (hsp1 : ∀ c ∈ sp1, isSpaceChar c = true) (hsp2 : ∀ c ∈ sp2, isSpaceChar c = true)
    (hdeg : IsDegreeToken deg) (hdw : IsDirToken d dw) :
    matchTempAt (ds ++ (sp1 ++ (deg ++ (sp2 ++ (dw ++ suf)))))
      = some (digitsToNat ds, d) := by
  obtain ⟨a, t, hdc, haS, haD⟩ := degToken_head hdeg
  obtain ⟨b, u, hbc, hbS, hbD, hbs⟩ := dirToken_head hdw
  have hnd1 : ∀ c ∈ ((sp1 ++ (deg ++ (sp2 ++ (dw ++ suf)))).take 1),
      isDigitChar c = false := by
    apply forall_take1_append_left (fun c hc => isSpace_not_digit (hsp1 c hc))
    rw [hdc, List.cons_append]
    exact forall_take1_cons haD
  have hTake : ((ds ++ (sp1 ++ (deg ++ (sp2 ++ (dw ++ suf))))).takeWhile isDigitChar)
      = ds := by
    rw [List.takeWhile_append_of_pos hdig, takeWhile_nil_of_head hnd1, List.append_nil]
  have hDropD : ((ds ++ (sp1 ++ (deg ++ (sp2 ++ (dw ++ suf))))).dropWhile isDigitChar)
      = sp1 ++ (deg ++ (sp2 ++ (dw ++ suf))) := by
    rw [List.dropWhile_append_of_pos hdig, dropWhile_self_of_head hnd1]
  have hns2 : ∀ c ∈ ((deg ++ (sp2 ++ (dw ++ suf))).take 1), isSpaceChar c = false := by
    rw [hdc, List.cons_append]
    exact forall_take1_cons haS
  have hDropS : ((sp1 ++ (deg ++ (sp2 ++ (dw ++ suf)))).dropWhile isSpaceChar)
      = deg ++ (sp2 ++ (dw ++ suf)) := by
    rw [List.dropWhile_append_of_pos hsp1, dropWhile_self_of_head hns2]
  have hnsdw : ∀ c ∈ ((dw ++ suf).take 1), isSpaceChar c = false := by
    rw [hbc, List.cons_append]
    exact forall_take1_cons hbS
  have hDropS2 : ((sp2 ++ (dw ++ suf)).dropWhile isSpaceChar) = dw ++ suf := by
    rw [List.dropWhile_append_of_pos hsp2, dropWhile_self_of_head hnsdw]
  unfold matchTempAt
  rw [hTake, if_neg hds, hDropD, hDropS, afterDegree_token hdeg hsp2 hdw]
  rw [Option.some_bind, hDropS2, matchDir_token hdw, Option.map_some']

theorem matchTempAt_not_digit (c : Char) (t : List Char) (h : isDigitChar c = false) :
    matchTempAt (c :: t) = none := by
  unfold matchTempAt
  rw [if_pos (takeWhile_nil_of_head (forall_take1_cons h))]

theorem findTemp_cons_some {c : Char} {t : List Char} {v : Nat × TempDir}
    (h : matchTempAt (c :: t) = some v) : findTemp (c :: t) = some v := by
  simp [findTemp, h]

/-- The scanner skips any digit-free prefix: no match can start inside it
because every match starts with a digit. -/
theorem findTemp_append_nodigit (pre : List Char) {rest : List Char}
    (hpre : ∀ c ∈ pre, isDigitChar c = false) :
    findTemp (pre ++ rest) = findTemp rest := by
  induction pre with
  | nil => rw [List.nil_append]
  | cons c p ih =>
    rw [List.cons_append]
    have hn := matchTempAt_not_digit c (p ++ rest) (hpre c (by simp))
    calc findTemp (c :: (p ++ rest)) = findTemp (p ++ rest) := by simp [findTemp, hn]
      _ = findTemp rest := ih (fun c hc => hpre c (by simp [hc]))

/-- If some suffix of the scan matches, the scanner succeeds. -/
theorem findTemp_append_some (pre : List Char) {rest : List Char} {v : Nat × TempDir}
    (h : matchTempAt rest = some v) : ∃ w, findTemp (pre ++ rest) = some w := by
  induction pre with
  | nil =>
    rw [List.nil_append]
    cases rest with
    | nil => rw [show matchTempAt [] = none from rfl] at h; cases h
    | cons c t => exact ⟨v, findTemp_cons_some h⟩
  | cons c p ih =>
    obtain ⟨w, hw⟩ := ih
    rw [List.cons_append]
    cases hm : matchTempAt (c :: (p ++ rest)) with
    | some u => exact ⟨u, findTemp_cons_some hm⟩
    | none => exact ⟨w, by simp [findTemp, hm, hw]⟩

/-- Inversion for `afterDegree`: success means a degree token was consumed. -/
theorem afterDegree_some_decomp {r1 r3 : List Char} (h : afterDegree r1 = some r3) :
    ∃ deg, r1 = deg ++ r3 ∧ IsDegreeToken deg := by
  unfold afterDegree at h
  by_cases h6 : ((r1.take 6).map Char.toLower) = "degree".data
  · rw [if_pos h6] at h
    injection h with h
    by_cases hS : (((r1.drop 6).take 1).map Char.toLower) = ['s']
    · rw [if_pos hS] at h
      refine ⟨r1.take 6 ++ (r1.drop 6).take 1, ?_, ?_⟩
      · rw [← h, List.append_assoc, List.take_append_drop, List.take_append_drop]
      · right
        unfold LowersTo
        rw [List.map_append, h6, hS]
        decide
    · rw [if_neg hS] at h
      exact ⟨r1.take 6, by rw [← h, List.take_append_drop], Or.inl h6⟩
  · rw [if_neg h6] at h
    cases h

/-- Inversion for `matchDir`: success means a direction word is at the head. -/
theorem matchDir_some_decomp {r4 : List Char} {d : TempDir} (h : matchDir r4 = some d) :
    ∃ dw suf, r4 = dw ++ suf ∧ IsDirToken d dw := by
  have hsplit : r4 = r4.take 6 ++ r4.drop 6 := (List.take_append_drop 6 r4).symm
  simp only [matchDir] at h
  by_cases h1 : ((r4.take 6).map Char.toLower) = "colder".data
  · rw [if_pos h1] at h
    injection h with h
    exact ⟨r4.take 6, r4.drop 6, hsplit, by rw [← h]; exact h1⟩
  · rw [if_neg h1] at h
    by_cases h2 : ((r4.take 6).map Char.toLower) = "cooler".data
    · rw [if_pos h2] at h
      injection h with h
      exact ⟨r4.take 6, r4.drop 6, hsplit, by rw [← h]; exact h2⟩
    · rw [if_neg h2] at h
      by_cases h3 : ((r4.take 6).map Char.toLower) = "warmer".data
      · rw [if_pos h3] at h
        injection h with h
        exact ⟨r4.take 6, r4.drop 6, hsplit, by rw [← h]; exact h3⟩
      · rw [if_neg h3] at h
        by_cases h4 : ((r4.take 6).map Char.toLower) = "hotter".data
        · rw [if_pos h4] at h
          injection h with h
          exact ⟨r4.take 6, r4.drop 6, hsplit, by rw [← h]; exact h4⟩
        · rw [if_neg h4] at h
          cases h

/-- Inversion for `matchTempAt`: a successful match at the head of `s`
exhibits a pattern occurrence starting at the head of `s`. -/
theorem matchTempAt_some_decomp {s : List Char} {n : Nat} {d : TempDir}
    (h : matchTempAt s = some (n, d)) :
    ∃ ds sp1 deg sp2 dw suf,
      s = ds ++ (sp1 ++ (deg ++ (sp2 ++ (dw ++ suf)))) ∧
      ds ≠ [] ∧ (∀ c ∈ ds, isDigitChar c = true) ∧
      (∀ c ∈ sp1, isSpaceChar c = true) ∧ (∀ c ∈ sp2, isSpaceChar c = true) ∧
      IsDegreeToken deg ∧ IsDirToken d dw := by
  unfold matchTempAt at h
  by_cases hds : s.takeWhile isDigitChar = []
  · rw [if_pos hds] at h
    cases h
  · rw [if_neg hds] at h
    cases haft : afterDegree ((s.dropWhile isDigitChar).dropWhile isSpaceChar) with
    | none => rw [haft] at h; cases h
    | some r3 =>
      rw [haft, Option.some_bind] at h
      cases hmd : matchDir (r3.dropWhile isSpaceChar) with
      | none => rw [hmd] at h; cases h
      | some d0 =>
        rw [hmd, Option.map_some'] at h
        injection h with h
        have hd0 : d0 = d := congrArg Prod.snd h
        subst hd0
        obtain ⟨deg, hr1, hdeg⟩ := afterDegree_some_decomp haft
        obtain ⟨dw, suf, hr4, hdw⟩ := matchDir_some_decomp hmd
        refine ⟨s.takeWhile isDigitChar,
          (s.dropWhile isDigitChar).takeWhile isSpaceChar, deg,
          r3.takeWhile isSpaceChar, dw, suf, ?_, hds,
          fun c hc => List.mem_takeWhile_imp hc,
          fun c hc => List.mem_takeWhile_imp hc,
          fun c hc => List.mem_takeWhile_imp hc, hdeg, hdw⟩
        calc s = s.takeWhile isDigitChar ++ s.dropWhile isDigitChar :=
              (List.takeWhile_append_dropWhile isDigitChar s).symm
          _ = s.takeWhile isDigitChar
                ++ ((s.dropWhile isDigitChar).takeWhile isSpaceChar
                  ++ (s.dropWhile isDigitChar).dropWhile isSpaceChar) :=
              congrArg (fun x => s.takeWhile isDigitChar ++ x)
                (List.takeWhile_append_dropWhile isSpaceChar _).symm
          _ = s.takeWhile isDigitChar
                ++ ((s.dropWhile isDigitChar).takeWhile isSpaceChar
                  ++ (deg ++ r3)) := by rw [hr1]
          _ = s.takeWhile isDigitChar
                ++ ((s.dropWhile isDigitChar).takeWhile isSpaceChar
                  ++ (deg ++ (r3.takeWhile isSpaceChar ++ r3.dropWhile isSpaceChar))) :=
              congrArg (fun x => s.takeWhile isDigitChar
                ++ ((s.dropWhile isDigitChar).takeWhile isSpaceChar ++ (deg ++ x)))
                (List.takeWhile_append_dropWhile isSpaceChar r3).symm
          _ = s.takeWhile isDigitChar
                ++ ((s.dropWhile isDigitChar).takeWhile isSpaceChar
                  ++ (deg ++ (r3.takeWhile isSpaceChar ++ (dw ++ suf)))) := by rw [hr4]

/-- Soundness of the scanner: a successful scan exhibits an occurrence of the
temperature pattern somewhere in the input. -/
theorem findTemp_sound (l : List Char) : ∀ (n : Nat) (d : TempDir),
    findTemp l = some (n, d) → ContainsTemp l := by
  induction l with
  | nil => intro n d h; simp [findTemp] at h
  | cons c cs ih =>
    intro n d h
    cases hm : matchTempAt (c :: cs) with
    | some v =>
      obtain ⟨n0, d0⟩ := v
      obtain ⟨ds, sp1, deg, sp2, dw, suf, hs, h1, h2, h3, h4, h5, h6⟩ :=
        matchTempAt_some_decomp hm
      exact ⟨[], ds, sp1, deg, sp2, dw, suf, d0, by rw [List.nil_append]; exact hs,
        h1, h2, h3, h4, h5, h6⟩
    | none =>
      have hrec : findTemp cs = some (n, d) := by
        simpa [findTemp, hm] using h
      obtain ⟨pre, ds, sp1, deg, sp2, dw, suf, d0, hs, rest⟩ := ih n d hrec
      exact ⟨c :: pre, ds, sp1, deg, sp2, dw, suf, d0,
        by rw [List.cons_append, ← hs], rest⟩

/-- Completeness of the scanner: any occurrence of the pattern makes the
scanner succeed. -/
theorem containsTemp_findTemp {l : List Char} (h : ContainsTemp l) :
    ∃ v, findTemp l = some v := by
  obtain ⟨pre, ds, sp1, deg, sp2, dw, suf, d, rfl, hds, hdig, hsp1, hsp2, hdeg, hdw⟩ := h
  exact findTemp_append_some pre (matchTempAt_pattern hds hdig hsp1 hsp2 hdeg hdw)

/-- **C1.**  A query containing the pattern `N degrees
colder/cooler/warmer/hotter` (case-insensitive) — given as an explicit
decomposition whose prefix holds no digit, so the shown occurrence is the
leftmost match — yields the signed temperature delta `-N` when the direction
word is `colder` or `cooler` and `+N` when it is `warmer` or `hotter`. -/
theorem temperature_delta_signed (pre ds sp1 deg sp2 dw suf : List Char) (d : TempDir)
    (hpre : ∀ c ∈ pre, isDigitChar c = false)
    (hds : ds ≠ []) (hdig : ∀ c ∈ ds, isDigitChar c = true)
    (hsp1 : ∀ c ∈ sp1, isSpaceChar c = true) (hsp2 : ∀ c ∈ sp2, isSpaceChar c = true)
    (hdeg : IsDegreeToken deg) (hdw : IsDirToken d dw) :
    extractTemperatureChange
        (String.mk (pre ++ (ds ++ (sp1 ++ (deg ++ (sp2 ++ (dw ++ suf)))))))
      = if d = TempDir.colder ∨ d = TempDir.cooler
        then -(digitsToNat ds : Int) else (digitsToNat ds : Int) := by
  have hmatch : matchTempAt (ds ++ (sp1 ++ (deg ++ (sp2 ++ (dw ++ suf)))))
      = some (digitsToNat ds, d) := matchTempAt_pattern hds hdig hsp1 hsp2 hdeg hdw
  have hfind : findTemp (pre ++ (ds ++ (sp1 ++ (deg ++ (sp2 ++ (dw ++ suf))))))
      = some (digitsToNat ds, d) := by
    rw [findTemp_append_nodigit pre hpre]
    cases ds with
    | nil => exact absurd rfl hds
    | cons e es =>
      rw [List.cons_append] at hmatch
      rw [List.cons_append]
      exact findTemp_cons_some hmatch
  unfold extractTemperatureChange
  rw [show (String.mk (pre ++ (ds ++ (sp1 ++ (deg ++ (sp2 ++ (dw ++ suf))))))).data
      = pre ++ (ds ++ (sp1 ++ (deg ++ (sp2 ++ (dw ++ suf))))) from rfl, hfind]

/-- Witness for the C1 theorem: spec Scenario 3, `"What if it became 10
degrees colder in Mission?"` extracts the delta `-10`. -/
theorem temperature_delta_signed_witness :
    extractTemperatureChange "What if it became 10 degrees colder in Mission?" = -10 := by
  have h := temperature_delta_signed "What if it became ".data "10".data
      [' '] "degrees".data [' '] "colder".data " in Mission?".data TempDir.colder
      (by decide) (by decide) (by decide) (by decide) (by decide) (by decide) (by decide)
  have heq : String.mk ("What if it became ".data ++ ("10".data ++ ([' '] ++
        ("degrees".data ++ ([' '] ++ ("colder".data ++ " in Mission?".data))))))
      = "What if it became 10 degrees colder in Mission?" := rfl
  rw [heq] at h
  rw [h]
  decide

/-- **C9.**  A query with no occurrence (anywhere, in any spelling) of the
temperature pattern is given the default delta `-10` rather than a signal
that the parameter is absent, so it is analysed as a ten-degrees-colder
scenario. -/
theorem temperature_default_minus_ten (q : String) (h : ¬ ContainsTemp q.data) :
    extractTemperatureChange q = -10 := by
  cases hf : findTemp q.data with
  | none =>
    unfold extractTemperatureChange
    rw [hf]
  | some v =>
    obtain ⟨n, d⟩ := v
    exact absurd (findTemp_sound q.data n d hf) h

/-- Witness for the C9 theorem on a pattern-free example query. -/
theorem temperature_default_minus_ten_witness :
    extractTemperatureChange "Make the Marina District more walkable" = -10 :=
  temperature_default_minus_ten "Make the Marina District more walkable" (fun hc => by
    obtain ⟨v, hv⟩ := containsTemp_findTemp hc
    have hnone : findTemp "Make the Marina District more walkable".data = none := by decide
    rw [hnone] at hv
    cases hv)

/-! ## Data model of `frontend/src/lib/api.ts`

The response types consumed by the rendering layer, embedded as structures.
TypeScript `number` is modelled as `ℚ`; `Record<string, T>` as an
association list `List (String × T)`. -/

/-- `ImpactMetric` (api.ts, lines 6–11). -/
structure ImpactMetric where
  before : ℚ
  after : ℚ
  unit : String
  confidence : ℚ
deriving DecidableEq

/-- `CategoryImpact` (api.ts, lines 13–18). -/
structure CategoryImpact where
  metrics : List (String × ImpactMetric)
  benefits : List String
  concerns : List String
  mitigation_strategies : List String
deriving DecidableEq

/-- `ComprehensiveImpact` (api.ts, lines 20–27). -/
structure ComprehensiveImpact where
  housing : CategoryImpact
  accessibility : CategoryImpact
  equity : CategoryImpact
  economic : CategoryImpact
  environmental : CategoryImpact
  overall_assessment : String
deriving DecidableEq

/-- `PlanningAlternative` (api.ts, lines 29–37). -/
structure PlanningAlternative where
  title : String
  type : String
  description : String
  units : ℚ
  affordable_percentage : ℚ
  height_ft : ℚ
  amenities : List String
deriving DecidableEq

/-- `AnalysisResult` (api.ts, lines 39–46). -/
structure AnalysisResult where
  query : String
  neighborhood : String
  alternatives : List PlanningAlternative
  recommended : String
  rationale : String
  impact : ComprehensiveImpact
deriving DecidableEq

/-! ## C10: percent change in the impact dashboard -/

/-- The percent-change computation of `ImpactDashboard`
(`frontend/src/components/impact-dashboard.tsx`, lines 118–119):

```ts
const change = m.after - m.before;
const percentChange = m.before !== 0 ? (change / m.before) * 100 : 0;
```
-/
def percentChange (m : ImpactMetric) : ℚ :=
  if m.before ≠ 0 then (m.after - m.before) / m.before * 100 else 0

/-- **C10.**  The displayed percent change is `(after - before) / before * 100`
whenever `before` is non-zero, and `0` when `before` is zero; the division is
guarded so a zero baseline never reaches it. -/
theorem percentChange_guarded (m : ImpactMetric) :
    (m.before ≠ 0 → percentChange m = (m.after - m.before) / m.before * 100) ∧
    (m.before = 0 → percentChange m = 0) := by
  constructor
  · intro h
    unfold percentChange
    rw [if_pos h]
  · intro h
    unfold percentChange
    rw [if_neg (by simp [h])]

/-- Witness for the C10 theorem: a metric going from 50 to 75 displays +50%,
and a metric with a zero baseline displays 0%. -/
theorem percentChange_guarded_witness :
    percentChange ⟨50, 75, "%", 9/10⟩ = 50 ∧ percentChange ⟨0, 75, "%", 9/10⟩ = 0 :=
  ⟨by rw [(percentChange_guarded ⟨50, 75, "%", 9/10⟩).1 (by norm_num)]; norm_num,
   (percentChange_guarded ⟨0, 75, "%", 9/10⟩).2 rfl⟩

/-! ## JSON model for C4 and C8

Modelled from the spec: the wire format of an `AnalysisResult`.  The actual
serialization in the repository is the platform JSON (`JSON.stringify` /
`response.json()`); here a JSON value type and the canonical
field-by-field encoding of the api.ts interfaces stand in for it. -/

/-- A JSON value (strings, numbers, arrays, objects). -/
inductive JValue where
  | str : String → JValue
  | num : ℚ → JValue
  | arr : List JValue → JValue
  | obj : List (String × JValue) → JValue

/-- The keys of a JSON object, in order. -/
def objKeys : JValue → List String
  | .obj kvs => kvs.map Prod.fst
  | _ => []

/-- Field lookup in a JSON object. -/
def getField (j : JValue) (k : String) : Option JValue :=
  match j with
  | .obj kvs => kvs.lookup k
  | _ => none

def asStr : JValue → Option String
  | .str s => some s
  | _ => none

def asNum : JValue → Option ℚ
  | .num q => some q
  | _ => none

def asArr : JValue → Option (List JValue)
  | .arr l => some l
  | _ => none

def asObj : JValue → Option (List (String × JValue))
  | .obj kvs => some kvs
  | _ => none

/-- Decode every element of a JSON array. -/
def decodeList {α : Type} (f : JValue → Option α) : List JValue → Option (List α)
  | [] => some []
  | x :: xs =>
    match f x, decodeList f xs with
    | some a, some rest => some (a :: rest)
    | _, _ => none

/-- Decode every value of a JSON object, keeping the keys. -/
def decodeKV {α : Type} (f : JValue → Option α) :
    List (String × JValue) → Option (List (String × α))
  | [] => some []
  | (k, v) :: xs =>
    match f v, decodeKV f xs with
    | some a, some rest => some ((k, a) :: rest)
    | _, _ => none

/-- Modelled from the spec: serialization of an `ImpactMetric`. -/
def serializeMetric (m : ImpactMetric) : JValue :=
  .obj [("before", .num m.before), ("after", .num m.after),
        ("unit", .str m.unit), ("confidence", .num m.confidence)]

/-- Modelled from the spec: serialization of a `CategoryImpact`. -/
def serializeCategory (c : CategoryImpact) : JValue :=
  .obj [("metrics", .obj (c.metrics.map (fun kv => (kv.1, serializeMetric kv.2)))),
        ("benefits", .arr (c.benefits.map .str)),
        ("concerns", .arr (c.concerns.map .str)),
        ("mitigation_strategies", .arr (c.mitigation_strategies.map .str))]

/-- Modelled from the spec: serialization of a `ComprehensiveImpact`. -/
def serializeImpact (ci : ComprehensiveImpact) : JValue :=
  .obj [("housing", serializeCategory ci.housing),
        ("accessibility", serializeCategory ci.accessibility),
        ("equity", serializeCategory ci.equity),
        ("economic", serializeCategory ci.economic),
        ("environmental", serializeCategory ci.environmental),
        ("overall_assessment", .str ci.overall_assessment)]

/-- Modelled from the spec: serialization of a `PlanningAlternative`. -/
def serializeAlternative (a : PlanningAlternative) : JValue :=
  .obj [("title", .str a.title), ("type", .str a.type),
        ("description", .str a.description), ("units", .num a.units),
        ("affordable_percentage", .num a.affordable_percentage),
        ("height_ft", .num a.height_ft),
        ("amenities", .arr (a.amenities.map .str))]

/-- Modelled from the spec: serialization of an `AnalysisResult`. -/
def serializeResult (r : AnalysisResult) : JValue :=
  .obj [("query", .str r.query), ("neighborhood", .str r.neighborhood),
        ("alternatives", .arr (r.alternatives.map serializeAlternative)),
        ("recommended", .str r.recommended), ("rationale", .str r.rationale),
        ("impact", serializeImpact r.impact)]

/-- Modelled from the spec: deserialization of an `ImpactMetric`. -/
def deserializeMetric (j : JValue) : Option ImpactMetric :=
  match (getField j "before").bind asNum, (getField j "after").bind asNum,
        (getField j "unit").bind asStr, (getField j "confidence").bind asNum with
  | some b, some a, some u, some c => some ⟨b, a, u, c⟩
  | _, _, _, _ => none

/-- Modelled from the spec: deserialization of a list of strings. -/
def deserializeStrList (j : JValue) : Option (List String) :=
  (asArr j).bind (decodeList asStr)

/-- Modelled from the spec: deserialization of a `CategoryImpact`. -/
def deserializeCategory (j : JValue) : Option CategoryImpact :=
  match ((getField j "metrics").bind asObj).bind (decodeKV deserializeMetric),
        (getField j "benefits").bind deserializeStrList,
        (getField j "concerns").bind deserializeStrList,
        (getField j "mitigation_strategies").bind deserializeStrList with
  | some ms, some bs, some cs, some mits => some ⟨ms, bs, cs, mits⟩
  | _, _, _, _ => none

/-- Modelled from the spec: deserialization of a `ComprehensiveImpact`. -/
def deserializeImpact (j : JValue) : Option ComprehensiveImpact :=
  match (getField j "housing").bind deserializeCategory,
        (getField j "accessibility").bind deserializeCategory,
        (getField j "equity").bind deserializeCategory,
        (getField j "economic").bind deserializeCategory,
        (getField j "environmental").bind deserializeCategory,
        (getField j "overall_assessment").bind asStr with
  | some h, some a, some e, some ec, some en, some oa => some ⟨h, a, e, ec, en, oa⟩
  | _, _, _, _, _, _ => none

/-- Modelled from the spec: deserialization of a `PlanningAlternative`. -/
def deserializeAlternative (j : JValue) : Option PlanningAlternative :=
  match (getField j "title").bind asStr, (getField j "type").bind asStr,
        (getField j "description").bind asStr, (getField j "units").bind asNum,
        (getField j "affordable_percentage").bind asNum,
        (getField j "height_ft").bind asNum,
        (getField j "amenities").bind deserializeStrList with
  | some ti, some ty, some de, some un, some ap, some hf, some am =>
    some ⟨ti, ty, de, un, ap, hf, am⟩
  | _, _, _, _, _, _, _ => none

/-- Modelled from the spec: deserialization of an `AnalysisResult`. -/
def deserializeResult (j : JValue) : Option AnalysisResult :=
  match (getField j "query").bind asStr, (getField j "neighborhood").bind asStr,
        ((getField j "alternatives").bind asArr).bind (decodeList deserializeAlternative),
        (getField j "recommended").bind asStr, (getField j "rationale").bind asStr,
        (getField j "impact").bind deserializeImpact with
  | some q, some nb, some al, some re, some ra, some im =>
    some ⟨q, nb, al, re, ra, im⟩
  | _, _, _, _, _, _ => none

theorem decodeList_map {α : Type} (f : JValue → Option α) (g : α → JValue)
    (hfg : ∀ a, f (g a) = some a) : ∀ l : List α, decodeList f (l.map g) = some l
  | [] => rfl
  | a :: rest => by
    rw [List.map_cons]
    unfold decodeList
    rw [hfg a, decodeList_map f g hfg rest]

theorem decodeKV_map {α : Type} (f : JValue → Option α) (g : α → JValue)
    (hfg : ∀ a, f (g a) = some a) :
    ∀ l : List (String × α), decodeKV f (l.map (fun kv => (kv.1, g kv.2))) = some l
  | [] => rfl
  | (k, a) :: rest => by
    rw [List.map_cons]
    unfold decodeKV
    rw [hfg a, decodeKV_map f g hfg rest]

theorem metric_roundtrip (m : ImpactMetric) :
    deserializeMetric (serializeMetric m) = some m := rfl

theorem strList_roundtrip (l : List String) :
    deserializeStrList (.arr (l.map JValue.str)) = some l := by
  unfold deserializeStrList
  rw [show asArr (.arr (l.map JValue.str)) = some (l.map JValue.str) from rfl,
    Option.some_bind]
  exact decodeList_map asStr JValue.str (fun a => rfl) l

theorem category_roundtrip (c : CategoryImpact) :
    deserializeCategory (serializeCategory c) = some c := by
  obtain ⟨ms, bs, cs, mits⟩ := c
  have h1 : ((getField (serializeCategory ⟨ms, bs, cs, mits⟩) "metrics").bind asObj).bind
      (decodeKV deserializeMetric) = some ms := by
    rw [show (getField (serializeCategory ⟨ms, bs, cs, mits⟩) "metrics").bind asObj
        = some (ms.map (fun kv => (kv.1, serializeMetric kv.2))) from rfl,
      Option.some_bind]
    exact decodeKV_map deserializeMetric serializeMetric metric_roundtrip ms
  have h2 : (getField (serializeCategory ⟨ms, bs, cs, mits⟩) "benefits").bind
      deserializeStrList = some bs := by
    rw [show getField (serializeCategory ⟨ms, bs, cs, mits⟩) "benefits"
        = some (.arr (bs.map JValue.str)) from rfl, Option.some_bind]
    exact strList_roundtrip bs
  have h3 : (getField (serializeCategory ⟨ms, bs, cs, mits⟩) "concerns").bind
      deserializeStrList = some cs := by
    rw [show getField (serializeCategory ⟨ms, bs, cs, mits⟩) "concerns"
        = some (.arr (cs.map JValue.str)) from rfl, Option.some_bind]
    exact strList_roundtrip cs
  have h4 : (getField (serializeCategory ⟨ms, bs, cs, mits⟩) "mitigation_strategies").bind
      deserializeStrList = some mits := by
    rw [show getField (serializeCategory ⟨ms, bs, cs, mits⟩) "mitigation_strategies"
        = some (.arr (mits.map JValue.str)) from rfl, Option.some_bind]
    exact strList_roundtrip mits
  unfold deserializeCategory
  rw [h1, h2, h3, h4]

theorem impact_roundtrip (ci : ComprehensiveImpact) :
    deserializeImpact (serializeImpact ci) = some ci := by
  obtain ⟨h, a, e, ec, en, oa⟩ := ci
  have hh : (getField (serializeImpact ⟨h, a, e, ec, en, oa⟩) "housing").bind
      deserializeCategory = some h := by
    rw [show getField (serializeImpact ⟨h, a, e, ec, en, oa⟩) "housing"
        = some (serializeCategory h) from rfl, Option.some_bind]
    exact category_roundtrip h
  have ha : (getField (serializeImpact ⟨h, a, e, ec, en, oa⟩) "accessibility").bind
      deserializeCategory = some a := by
    rw [show getField (serializeImpact ⟨h, a, e, ec, en, oa⟩) "accessibility"
        = some (serializeCategory a) from rfl, Option.some_bind]
    exact category_roundtrip a
  have he : (getField (serializeImpact ⟨h, a, e, ec, en, oa⟩) "equity").bind
      deserializeCategory = some e := by
    rw [show getField (serializeImpact ⟨h, a, e, ec, en, oa⟩) "equity"
        = some (serializeCategory e) from rfl, Option.some_bind]
    exact category_roundtrip e
  have hec : (getField (serializeImpact ⟨h, a, e, ec, en, oa⟩) "economic").bind
      deserializeCategory = some ec := by
    rw [show getField (serializeImpact ⟨h, a, e, ec, en, oa⟩) "economic"
        = some (serializeCategory ec) from rfl, Option.some_bind]
    exact category_roundtrip ec
  have hen : (getField (serializeImpact ⟨h, a, e, ec, en, oa⟩) "environmental").bind
      deserializeCategory = some en := by
    rw [show getField (serializeImpact ⟨h, a, e, ec, en, oa⟩) "environmental"
        = some (serializeCategory en) from rfl, Option.some_bind]
    exact category_roundtrip en
  unfold deserializeImpact
  rw [hh, ha, he, hec, hen]
  rfl

theorem alternative_roundtrip (al : PlanningAlternative) :
    deserializeAlternative (serializeAlternative al) = some al := by
  obtain ⟨ti, ty, de, un, ap, hf, am⟩ := al
  have ham : (getField (serializeAlternative ⟨ti, ty, de, un, ap, hf, am⟩) "amenities").bind
      deserializeStrList = some am := by
    rw [show getField (serializeAlternative ⟨ti, ty, de, un, ap, hf, am⟩) "amenities"
        = some (.arr (am.map JValue.str)) from rfl, Option.some_bind]
    exact strList_roundtrip am
  unfold deserializeAlternative
  rw [ham]
  rfl

/-- **C4.**  Every serialized `ComprehensiveImpact` holds exactly the five
fixed categories housing, accessibility, equity, economic, environmental —
each a `CategoryImpact` with metrics, benefits, concerns and mitigation
strategies — plus exactly one `overall_assessment` string; no category is
missing or added. -/
theorem impact_exactly_five_categories (ci : ComprehensiveImpact) :
    objKeys (serializeImpact ci)
      = ["housing", "accessibility", "equity", "economic", "environmental",
         "overall_assessment"] ∧
    getField (serializeImpact ci) "housing" = some (serializeCategory ci.housing) ∧
    getField (serializeImpact ci) "accessibility"
      = some (serializeCategory ci.accessibility) ∧
    getField (serializeImpact ci) "equity" = some (serializeCategory ci.equity) ∧
    getField (serializeImpact ci) "economic" = some (serializeCategory ci.economic) ∧
    getField (serializeImpact ci) "environmental"
      = some (serializeCategory ci.environmental) ∧
    getField (serializeImpact ci) "overall_assessment"
      = some (.str ci.overall_assessment) ∧
    (∀ c : CategoryImpact, objKeys (serializeCategory c)
      = ["metrics", "benefits", "concerns", "mitigation_strategies"]) :=
  ⟨rfl, rfl, rfl, rfl, rfl, rfl, rfl, fun _ => rfl⟩

/-- **C8.**  Serializing an `AnalysisResult` and deserializing the result
yields the identical structure: no field of query, neighborhood,
alternatives, recommended, rationale or impact is lost. -/
theorem analysisResult_roundtrip (r : AnalysisResult) :
    deserializeResult (serializeResult r) = some r := by
  obtain ⟨q, nb, al, re, ra, im⟩ := r
  have hal : ((getField (serializeResult ⟨q, nb, al, re, ra, im⟩) "alternatives").bind
      asArr).bind (decodeList deserializeAlternative) = some al := by
    rw [show (getField (serializeResult ⟨q, nb, al, re, ra, im⟩) "alternatives").bind asArr
        = some (al.map serializeAlternative) from rfl, Option.some_bind]
    exact decodeList_map deserializeAlternative serializeAlternative alternative_roundtrip al
  have him : (getField (serializeResult ⟨q, nb, al, re, ra, im⟩) "impact").bind
      deserializeImpact = some im := by
    rw [show getField (serializeResult ⟨q, nb, al, re, ra, im⟩) "impact"
        = some (serializeImpact im) from rfl, Option.some_bind]
    exact impact_roundtrip im
  unfold deserializeResult
  rw [hal, him]
  rfl

/-! ## The query classifier (spec §4.1)

The backend classifier is absent from the source snapshot (only its
response types and README description are present), so it is modelled from
the spec: relevance guard, structure detection, domain detection over fixed
lexicons with a fixed priority order, neighborhood resolution ordered by
first occurrence, parameter extraction (the temperature pattern above), and
a clamped weighted-sum confidence. -/

/-- First index (0-based) at which `needle` occurs in the remaining text. -/
def firstIdxAux (needle : List Char) : List Char → Nat → Option Nat
  | [], i => if needle.isPrefixOf ([] : List Char) then some i else none
  | c :: cs, i => if needle.isPrefixOf (c :: cs) then some i else firstIdxAux needle cs (i + 1)

/-- First index of a case-insensitive occurrence of `needle` in `hay`. -/
def firstIdxCI (hay needle : String) : Option Nat :=
  firstIdxAux (needle.data.map Char.toLower) (hay.data.map Char.toLower) 0

/-- Case-insensitive substring test. -/
def containsCI (hay needle : String) : Bool := (firstIdxCI hay needle).isSome

/-- The four query types of the spec data model. -/
inductive QueryType where
  | analytical
  | comparative
  | scenario_planning
  | solution_seeking
deriving DecidableEq, Repr

/-- The six domains of the spec data model. -/
inductive Domain where
  | transportation
  | housing
  | climate
  | economic
  | environmental
  | general
deriving DecidableEq, Repr

/-- Modelled from the spec: the fixed keyword lexicon of each domain. -/
def domainLexicon : Domain → List String
  | .transportation => ["bike", "transit", "walkab", "pedestrian", "traffic", "infrastructure"]
  | .housing => ["housing", "density", "afford", "displac", "development"]
  | .climate => ["colder", "warmer", "temperature", "climate", "degrees", "flood"]
  | .economic => ["business", "economic", "revenue", "employment", "commercial"]
  | .environmental => ["park", "environment", "green", "sustainab", "air quality"]
  | .general => []

/-- Modelled from the spec: the fixed priority order used to break ties. -/
def domainPriority : List Domain :=
  [.transportation, .housing, .climate, .economic, .environmental]

/-- Number of lexicon keywords of `d` occurring in the query. -/
def domainScore (q : String) (d : Domain) : Nat :=
  ((domainLexicon d).filter (fun w => containsCI q w)).length

/-- Modelled from the spec: keyword matching per domain, ties broken by the
first-listed domain in the fixed priority order; no keyword at all gives the
`general` domain. -/
def detectDomain (q : String) : Domain :=
  let scored := domainPriority.map (fun d => (d, domainScore q d))
  (scored.foldl (fun acc p => if acc.2 < p.2 then p else acc) (Domain.general, 0)).1

/-- Modelled from the spec: structure detection, applied in order —
comparative markers, then conditional markers, then prescriptive markers,
else analytical. -/
def detectQueryType (q : String) : QueryType :=
  if containsCI q "vs" || containsCI q "compare" || containsCI q "between" then
    .comparative
  else if containsCI q "what if" || containsCI q "how would" then
    .scenario_planning
  else if containsCI q "how should" || containsCI q "what should" then
    .solution_seeking
  else .analytical

/-- The fixed set of neighborhood names served by the data provider. -/
def neighborhoodNames : List String := ["marina", "mission", "hayes valley"]

/-- Modelled from the spec: the landmark → neighborhood lookup table. -/
def landmarkTable : List (String × String) :=
  [("fort mason", "marina"), ("dolores park", "mission"), ("hayes", "hayes valley")]

/-- Stable insertion by text position. -/
def insertByIdx (x : Nat × String) : List (Nat × String) → List (Nat × String)
  | [] => [x]
  | y :: ys => if x.1 ≤ y.1 then x :: y :: ys else y :: insertByIdx x ys

/-- Stable sort by text position (insertion sort). -/
def sortByIdx : List (Nat × String) → List (Nat × String)
  | [] => []
  | x :: xs => insertByIdx x (sortByIdx xs)

/-- Deduplicate keeping the first occurrence of each element. -/
def dedupFirst (l : List String) : List String :=
  l.foldl (fun acc x => if x ∈ acc then acc else acc ++ [x]) []

/-- Modelled from the spec: neighborhood resolution — direct name matches
and landmark-derived matches, united, ordered by first occurrence in the
text, deduplicated. -/
def resolveNeighborhoods (names : List String) (landmarks : List (String × String))
    (q : String) : List String :=
  let direct := names.filterMap (fun n => (firstIdxCI q n).map (fun i => (i, n)))
  let viaLandmark :=
    landmarks.filterMap (fun lm => (firstIdxCI q lm.1).map (fun i => (i, lm.2)))
  dedupFirst ((sortByIdx (direct ++ viaLandmark)).map Prod.snd)

/-- The extracted parameters of a query (the directional temperature delta). -/
structure QueryParams where
  temperature_delta : Option Int
deriving DecidableEq, Repr

/-- Modelled from the spec: parameter extraction; the directional delta uses
the temperature pattern of `extractTemperatureChange`. -/
def extractParams (q : String) : QueryParams :=
  ⟨(findTemp q.data).map (fun nd =>
    if nd.2 = TempDir.colder ∨ nd.2 = TempDir.cooler then -(nd.1 : Int) else (nd.1 : Int))⟩

/-- Clamp to the unit interval. -/
def clamp01 (x : ℚ) : ℚ := max 0 (min 1 x)

theorem clamp01_mem (x : ℚ) : 0 ≤ clamp01 x ∧ clamp01 x ≤ 1 :=
  ⟨le_max_left 0 (min 1 x), max_le (by norm_num) (min_le_left 1 x)⟩

/-- Modelled from the spec: classifier confidence — a fixed, documented
weighted sum of sub-scores (domain strength 0.3, neighborhood certainty 0.3,
structural clarity 0.2, parameter completeness 0.2), clamped to `[0,1]`. -/
def classifierConfidence (domainStrength nbhdCertainty structClarity paramCompleteness : ℚ) : ℚ :=
  clamp01 (3/10 * domainStrength + 3/10 * nbhdCertainty
    + 1/5 * structClarity + 1/5 * paramCompleteness)

/-- `QueryClassification` (spec §3). -/
structure QueryClassification where
  query_type : QueryType
  primary_domain : Domain
  neighborhoods : List String
  parameters : QueryParams
  confidence : ℚ
  comparative : Bool
deriving DecidableEq, Repr

/-- Modelled from the spec §4.1: the classifier over given neighborhood name
data; `none` plays the role of the terminal `RelevanceError`. -/
def classifyWith (names : List String) (landmarks : List (String × String))
    (q : String) : Option QueryClassification :=
  let nbhds := resolveNeighborhoods names landmarks q
  let hasDomain := domainPriority.any (fun d => decide (0 < domainScore q d))
  let hasQuestion := containsCI q "what" || containsCI q "how"
    || containsCI q "should" || containsCI q "?"
  if !hasDomain && nbhds.isEmpty && !hasQuestion then none
  else
    let qt := detectQueryType q
    let pd := detectDomain q
    let ps := extractParams q
    let domStrength : ℚ :=
      if 2 ≤ domainScore q pd then 1 else if 1 ≤ domainScore q pd then 7/10 else 0
    let nbhdCert : ℚ :=
      if names.any (fun n => containsCI q n) then 1
      else if nbhds.isEmpty then 0 else 7/10
    let structCl : ℚ := if qt = QueryType.analytical then 1/2 else 1
    let paramCompl : ℚ :=
      if qt = QueryType.scenario_planning then
        (if ps.temperature_delta.isSome then 1 else 0)
      else 1
    some ⟨qt, pd, nbhds, ps,
      classifierConfidence domStrength nbhdCert structCl paramCompl,
      decide (2 ≤ nbhds.length)⟩

/-- The classifier against the production neighborhood data. -/
def classify (q : String) : Option QueryClassification :=
  classifyWith neighborhoodNames landmarkTable q

example : (classify "Marina vs Mission bike infrastructure").map
    (fun c => (c.query_type, c.primary_domain, c.neighborhoods, c.comparative))
    = some (QueryType.comparative, Domain.transportation, ["marina", "mission"], true) := by
  decide

example : (classify "").isSome = false := by decide

example : (classify "What if it became 10 degrees colder in Mission?").map
    (fun c => (c.query_type, c.primary_domain, c.parameters.temperature_delta))
    = some (QueryType.scenario_planning, Domain.climate, some (-10)) := by decide

/-- **C3.**  Every classification produced by `classify` has
`comparative = true` exactly when at least two neighborhoods resolved. -/
theorem classify_comparative_iff (q : String) (c : QueryClassification)
    (h : classify q = some c) :
    c.comparative = true ↔ 2 ≤ c.neighborhoods.length := by
  unfold classify classifyWith at h
  by_cases hguard : (!domainPriority.any (fun d => decide (0 < domainScore q d))
      && (resolveNeighborhoods neighborhoodNames landmarkTable q).isEmpty
      && (!(containsCI q "what" || containsCI q "how"
        || containsCI q "should" || containsCI q "?"))) = true
  · rw [if_pos hguard] at h
    cases h
  · rw [if_neg hguard] at h
    injection h with h
    subst h
    exact decide_eq_true_iff

/-- Witness for the C3 theorem at spec Scenario 1. -/
theorem classify_comparative_iff_witness :
    ∃ c, classify "Marina vs Mission bike infrastructure" = some c ∧
      (c.comparative = true ↔ 2 ≤ c.neighborhoods.length) :=
  ⟨_, rfl, classify_comparative_iff "Marina vs Mission bike infrastructure" _ rfl⟩

/-! ## C7: determinism and purity of classification -/

/-- The provider-visible state: neighborhood name data plus unrelated
bookkeeping; classification may read the name data only. -/
structure ProviderState where
  names : List String
  landmarks : List (String × String)
  refreshCount : Nat
deriving DecidableEq, Repr

/-- Modelled from the spec: a classification run against the data provider —
it performs one read of the neighborhood name data and returns the
classification together with the provider state it leaves behind. -/
def classifyRun (q : String) (w : ProviderState) :
    Option QueryClassification × ProviderState :=
  (classifyWith w.names w.landmarks q, w)

/-- **C7.**  Classification is pure, deterministic and idempotent: a run
leaves the provider state unchanged, a second run on the state left by the
first returns the identical classification, and any two runs on identical
input text over identical neighborhood name data return identical
classifications. -/
theorem classify_deterministic_pure (q : String) (w : ProviderState) :
    (classifyRun q w).2 = w ∧
    (classifyRun q (classifyRun q w).2).1 = (classifyRun q w).1 ∧
    (∀ w', w.names = w'.names → w.landmarks = w'.landmarks →
      (classifyRun q w).1 = (classifyRun q w').1) := by
  refine ⟨rfl, rfl, fun w' h1 h2 => ?_⟩
  show classifyWith w.names w.landmarks q = classifyWith w'.names w'.landmarks q
  rw [h1, h2]

/-- Witness for the C7 theorem: two runs over provider states that differ
only in bookkeeping agree on spec Scenario 3. -/
theorem classify_deterministic_pure_witness :
    (classifyRun "What if it became 10 degrees colder in Mission?"
        ⟨neighborhoodNames, landmarkTable, 0⟩).1
      = (classifyRun "What if it became 10 degrees colder in Mission?"
        ⟨neighborhoodNames, landmarkTable, 99⟩).1 :=
  (classify_deterministic_pure "What if it became 10 degrees colder in Mission?"
    ⟨neighborhoodNames, landmarkTable, 0⟩).2.2
    ⟨neighborhoodNames, landmarkTable, 99⟩ rfl rfl

/-! ## C2: confidence values stay in the unit interval -/

/-- Modelled from the spec: the confidence attached to an evaluated metric,
clamped to the unit interval. -/
def metricConfidence (raw : ℚ) : ℚ := clamp01 raw

/-- Modelled from the spec §4.4: the final confidence — a fixed deterministic
combination of the classifier confidence, the fallback-template penalty, the
scenario feasibility ratio and the dimension completeness, clamped. -/
def finalConfidence (classifierConf : ℚ) (templateIsFallback : Bool)
    (feasibilityRatio dimCompleteness : ℚ) : ℚ :=
  clamp01 (clamp01 classifierConf * (if templateIsFallback then 4/5 else 1)
    * clamp01 feasibilityRatio * clamp01 dimCompleteness)

/-- **C2.**  Every confidence the pipeline produces lies in `[0,1]`: the
classification confidence of every classified query, every metric
confidence, and the final combined confidence; the classifier's weighted
sum is clamped to `[0,1]` for all sub-scores. -/
theorem confidence_unit_interval :
    (∀ q c, classify q = some c → 0 ≤ c.confidence ∧ c.confidence ≤ 1) ∧
    (∀ raw, 0 ≤ metricConfidence raw ∧ metricConfidence raw ≤ 1) ∧
    (∀ cc tf fr dc, 0 ≤ finalConfidence cc tf fr dc ∧ finalConfidence cc tf fr dc ≤ 1) ∧
    (∀ a b c d, 0 ≤ classifierConfidence a b c d ∧ classifierConfidence a b c d ≤ 1) := by
  refine ⟨?_, fun raw => clamp01_mem raw, fun cc tf fr dc => clamp01_mem _,
    fun a b c d => clamp01_mem _⟩
  intro q c h
  unfold classify classifyWith at h
  by_cases hguard : (!domainPriority.any (fun d => decide (0 < domainScore q d))
      && (resolveNeighborhoods neighborhoodNames landmarkTable q).isEmpty
      && (!(containsCI q "what" || containsCI q "how"
        || containsCI q "should" || containsCI q "?"))) = true
  · rw [if_pos hguard] at h
    cases h
  · rw [if_neg hguard] at h
    injection h with h
    subst h
    exact clamp01_mem _

/-- Witness for the C2 theorem: the classification confidence of spec
Scenario 1 lies in the unit interval. -/
theorem confidence_unit_interval_witness :
    ∃ c, classify "Marina vs Mission bike infrastructure" = some c ∧
      0 ≤ c.confidence ∧ c.confidence ≤ 1 :=
  ⟨_, rfl, confidence_unit_interval.1 "Marina vs Mission bike infrastructure" _ rfl⟩

/-! ## C6: the template selector (spec §4.2) -/

/-- A template: metric definitions and a default structural parameter range;
`isFallback` marks the generic fallback template. -/
structure Template where
  name : String
  metricNames : List String
  densityRange : ℚ × ℚ
  isFallback : Bool
deriving DecidableEq, Repr

/-- Modelled from the spec: the designated generic fallback template. -/
def genericTemplate : Template :=
  ⟨"generic_analysis", ["overall_impact"], (1, 3), true⟩

/-- Modelled from the spec: the `(domain, query_type)` template lookup table. -/
def templateTable : List ((Domain × QueryType) × Template) :=
  [((.climate, .scenario_planning),
     ⟨"climate_scenario", ["heating_cost", "flood_risk", "outdoor_activity"], (1, 3), false⟩),
   ((.transportation, .comparative),
     ⟨"transport_comparison", ["transit_access", "bike_infrastructure"], (1, 4), false⟩),
   ((.transportation, .analytical),
     ⟨"transport_analysis", ["transit_access", "walkability"], (1, 4), false⟩),
   ((.housing, .solution_seeking),
     ⟨"housing_solutions", ["units_added", "affordability"], (2, 6), false⟩),
   ((.housing, .analytical),
     ⟨"housing_analysis", ["units_added", "displacement_risk"], (2, 6), false⟩),
   ((.economic, .analytical),
     ⟨"economic_analysis", ["revenue", "employment"], (1, 5), false⟩),
   ((.environmental, .analytical),
     ⟨"environmental_analysis", ["green_space", "air_quality"], (1, 3), false⟩)]

/-- Modelled from the spec §4.2: template selection — a dynamic lookup whose
missing keys map to the designated generic fallback template, never to an
error. -/
def select (d : Domain) (qt : QueryType) : Template :=
  match templateTable.lookup (d, qt) with
  | some t => t
  | none => genericTemplate

/-- **C6.**  `select` is total: every `(domain, query_type)` pair yields a
template — the table entry when the pair is present, the generic fallback
template otherwise — and never an error. -/
theorem select_total (d : Domain) (qt : QueryType) :
    ∃ t : Template, select d qt = t ∧
      (templateTable.lookup (d, qt) = some t ∨
        (templateTable.lookup (d, qt) = none ∧ t = genericTemplate)) := by
  cases h : templateTable.lookup (d, qt) with
  | some t => exact ⟨t, by unfold select; rw [h], Or.inl rfl⟩
  | none => exact ⟨genericTemplate, by unfold select; rw [h], Or.inr ⟨rfl, rfl⟩⟩

/-! ## C5: the scenario generator (spec §4.3) -/

/-- `ScenarioVariant` (spec §3): one candidate configuration for a
neighborhood. -/
structure ScenarioVariant where
  neighborhood : String
  density : ℚ
  height_ft : ℚ
  units : ℚ
  amenities : List String
  feasible : Bool
  score : ℚ
deriving DecidableEq, Repr

/-- Modelled from the spec: the candidate variants spanning the template's
parameter range (low / mid / high density), with policy-alignment scores. -/
def candidatesFor (t : Template) (nb : String) : List ScenarioVariant :=
  [⟨nb, t.densityRange.1, 30, t.densityRange.1 * 10, ["open space"], true, 1/2⟩,
   ⟨nb, (t.densityRange.1 + t.densityRange.2) / 2, 45,
     (t.densityRange.1 + t.densityRange.2) / 2 * 10,
     ["mixed use", "transit access"], true, 1⟩,
   ⟨nb, t.densityRange.2, 65, t.densityRange.2 * 10,
     ["mixed use", "affordable units"], true, 3/4⟩]

/-- Flag a variant as infeasible. -/
def setInfeasible (v : ScenarioVariant) : ScenarioVariant :=
  ⟨v.neighborhood, v.density, v.height_ft, v.units, v.amenities, false, v.score⟩

/-- Pick the better-scoring of two variants (first on ties). -/
def pickBetter (best x : ScenarioVariant) : ScenarioVariant :=
  if best.score < x.score then x else best

/-- Modelled from the spec: the least-infeasible candidate — the candidate
with the highest policy-alignment score. -/
def leastInfeasible (t : Template) (nb : String) : ScenarioVariant :=
  match candidatesFor t nb with
  | [] => ⟨nb, 0, 0, 0, [], false, 0⟩
  | c :: cs => cs.foldl pickBetter c

theorem foldl_pickBetter_neighborhood (nb : String) :
    ∀ (l : List ScenarioVariant) (c : ScenarioVariant), c.neighborhood = nb →
      (∀ v ∈ l, v.neighborhood = nb) → (l.foldl pickBetter c).neighborhood = nb := by
  intro l
  induction l with
  | nil => intro c hc _; exact hc
  | cons y ys ih =>
    intro c hc hl
    rw [List.foldl_cons]
    have hpick : (pickBetter c y).neighborhood = nb := by
      unfold pickBetter
      by_cases h : c.score < y.score
      · rw [if_pos h]; exact hl y (by simp)
      · rw [if_neg h]; exact hc
    exact ih (pickBetter c y) hpick (fun v hv => hl v (by simp [hv]))

theorem leastInfeasible_neighborhood (t : Template) (nb : String) :
    (leastInfeasible t nb).neighborhood = nb := by
  exact foldl_pickBetter_neighborhood nb _ _ rfl
    (by intro v hv; rcases (by simpa using hv : _ ∨ _) with rfl | rfl <;> rfl)

/-- Stable insertion by descending policy score. -/
def insertByScore (x : ScenarioVariant) : List ScenarioVariant → List ScenarioVariant
  | [] => [x]
  | y :: ys => if y.score ≤ x.score then x :: y :: ys else y :: insertByScore x ys

/-- Rank variants in descending score order (insertion sort). -/
def rankVariants : List ScenarioVariant → List ScenarioVariant
  | [] => []
  | x :: xs => insertByScore x (rankVariants xs)

/-- Modelled from the spec §4.3: per-neighborhood generation — candidates
pass through the black-box constraint validator; survivors are returned in
descending rank order; when the validator rejects every candidate, the
least-infeasible candidate is returned with an explicit infeasible flag
rather than an empty list. -/
def generateFor (validate : ScenarioVariant → Bool) (t : Template)
    (nb : String) : List ScenarioVariant :=
  match (candidatesFor t nb).filter validate with
  | [] => [setInfeasible (leastInfeasible t nb)]
  | s :: ss => rankVariants (s :: ss)

/-- Modelled from the spec §4.3: generation over all resolved neighborhoods. -/
def generate (validate : ScenarioVariant → Bool) (t : Template) :
    List String → List ScenarioVariant
  | [] => []
  | nb :: rest => generateFor validate t nb ++ generate validate t rest

theorem self_mem_insertByScore (x : ScenarioVariant) :
    ∀ l : List ScenarioVariant, x ∈ insertByScore x l
  | [] => by simp [insertByScore]
  | y :: ys => by
    unfold insertByScore
    by_cases h : y.score ≤ x.score
    · rw [if_pos h]; exact List.mem_cons_self x (y :: ys)
    · rw [if_neg h]; exact List.mem_cons_of_mem y (self_mem_insertByScore x ys)

theorem mem_candidatesFor {t : Template} {nb : String} {v : ScenarioVariant}
    (h : v ∈ candidatesFor t nb) : v.neighborhood = nb := by
  rcases (by simpa [candidatesFor] using h : _ ∨ _ ∨ _) with rfl | rfl | rfl <;> rfl

/-- Per-neighborhood specification of the generator: a variant for the
neighborhood is always produced, and when the validator rejects every
candidate the produced variant carries the infeasible flag. -/
theorem generateFor_spec (validate : ScenarioVariant → Bool) (t : Template)
    (nb : String) :
    ∃ v ∈ generateFor validate t nb, v.neighborhood = nb ∧
      ((∀ c ∈ candidatesFor t nb, validate c = false) → v.feasible = false) := by
  cases hs : (candidatesFor t nb).filter validate with
  | nil =>
    have hg : generateFor validate t nb = [setInfeasible (leastInfeasible t nb)] := by
      unfold generateFor
      rw [hs]
    refine ⟨setInfeasible (leastInfeasible t nb), by rw [hg]; simp, ?_, fun _ => rfl⟩
    show (leastInfeasible t nb).neighborhood = nb
    exact leastInfeasible_neighborhood t nb
  | cons s ss =>
    have hg : generateFor validate t nb = rankVariants (s :: ss) := by
      unfold generateFor
      rw [hs]
    have hmem : s ∈ (candidatesFor t nb).filter validate := by
      rw [hs]; exact List.mem_cons_self s ss
    have hcand := List.mem_filter.mp hmem
    refine ⟨s, by rw [hg]; exact self_mem_insertByScore s (rankVariants ss), ?_, ?_⟩
    · exact mem_candidatesFor hcand.1
    · intro hall
      exact absurd hcand.2 (by simp [hall s hcand.1])

/-- **C5.**  For every non-empty list of resolved neighborhoods the generator
returns a non-empty list holding, for every resolved neighborhood, at least
one variant for it; when the constraint validator rejects every candidate of
a neighborhood, that neighborhood still receives a variant, carrying an
explicit infeasible flag instead of an empty result. -/
theorem generator_covers_neighborhoods (validate : ScenarioVariant → Bool)
    (t : Template) (nbs : List String) (hne : nbs ≠ []) :
    generate validate t nbs ≠ [] ∧
    ∀ nb ∈ nbs, ∃ v ∈ generate validate t nbs, v.neighborhood = nb ∧
      ((∀ c ∈ candidatesFor t nb, validate c = false) → v.feasible = false) := by
  constructor
  · cases nbs with
    | nil => exact absurd rfl hne
    | cons a rest =>
      show generateFor validate t a ++ generate validate t rest ≠ []
      obtain ⟨v, hv, _⟩ := generateFor_spec validate t a
      exact List.ne_nil_of_mem (List.mem_append_left _ hv)
  · intro nb hnb
    clear hne
    induction nbs with
    | nil => cases hnb
    | cons a rest ih =>
      rcases List.mem_cons.mp hnb with rfl | hmem
      · obtain ⟨v, hv, hprop⟩ := generateFor_spec validate t nb
        exact ⟨v, List.mem_append_left _ hv, hprop⟩
      · obtain ⟨v, hv, hprop⟩ := ih hmem
        exact ⟨v, List.mem_append_right _ hv, hprop⟩

/-- Witness for the C5 theorem: an always-rejecting validator on one
neighborhood still yields a variant for it, flagged infeasible. -/
theorem generator_covers_neighborhoods_witness :
    generate (fun _ => false) genericTemplate ["marina"] ≠ [] ∧
    ∃ v ∈ generate (fun _ => false) genericTemplate ["marina"],
      v.neighborhood = "marina" ∧ v.feasible = false := by
  have h := generator_covers_neighborhoods (fun _ => false) genericTemplate
    ["marina"] (by decide)
  refine ⟨h.1, ?_⟩
  obtain ⟨v, hv, hnb, hinf⟩ := h.2 "marina" (by simp)
  exact ⟨v, hv, hnb, hinf (fun c hc => rfl)⟩

end UrbanInfra
